import Mathlib

/-!
Shallow embedding of `src/script/arxivCollector.py`.

Strings are modelled as Lean `String`s (logically `List Char`); Python string
primitives (`strip`, `re.sub`, `str.replace`, …) are embedded over `List Char`
with ASCII scope (the inputs appearing in the program are ASCII except for the
page text itself, which is handled character-for-character).  Parsed HTML
(`BeautifulSoup`) is embedded as the result of the fixed CSS queries the code
performs: an item of a result page is the triple of the title node's stripped
strings, the abs-link's `(href, text)` pair and the pdf-link's `href`; the page
also carries the list of element texts scanned by `extract_total_results`.
The network is an oracle `Nat → Soup` keyed by the request offset for listing
pages, and `String → Except String String` for artifact downloads (a call to it
models one network request; the caught exception of the Python `try` block is
its `error` case).  The filesystem is the set (list) of existing file paths.
The unbounded `while True` loop of `collect_records` is given explicit fuel;
every claim is stated either for all fuel or for fuel large enough for the
loop to hit its own termination condition.
-/

namespace Arxiv

/-- Python's `str.strip()` whitespace class (ASCII scope): the characters
`\s` matches in the source's regexes. -/
def pyIsSpace (c : Char) : Bool :=
  decide (c = ' ' ∨ c = '\t' ∨ c = '\n' ∨ c = '\r' ∨ c = '\x0b' ∨ c = '\x0c')

/-- Strip characters satisfying `p` from both ends of a list
(Python `str.strip(chars)`). -/
def stripEnds (p : Char → Bool) (l : List Char) : List Char :=
  ((l.dropWhile p).reverse.dropWhile p).reverse

/-- Python `str.strip()` on the character list. -/
def pyStripL (l : List Char) : List Char := stripEnds pyIsSpace l

/-- Python `str.strip()`. -/
def pyStrip (s : String) : String := ⟨pyStripL s.data⟩

/-- The character class stripped from both ends by `slugify`'s
`safe.strip("_.")`. -/
def isUnderscoreDot (c : Char) : Bool := decide (c = '_' ∨ c = '.')

/-- The character class `[A-Za-z0-9_.-]` of `slugify`'s second substitution. -/
def allowedChar (c : Char) : Bool :=
  decide (('A' ≤ c ∧ c ≤ 'Z') ∨ ('a' ≤ c ∧ c ≤ 'z') ∨ ('0' ≤ c ∧ c ≤ '9')
    ∨ c = '_' ∨ c = '.' ∨ c = '-')

/-- `re.sub(r"\s+", "_", ·)`: replace every maximal run of whitespace by one
underscore.  The flag records whether we are inside a run already replaced. -/
def collapseWs : Bool → List Char → List Char
  | _, [] => []
  | inRun, c :: cs =>
    if pyIsSpace c then
      if inRun then collapseWs true cs else '_' :: collapseWs true cs
    else c :: collapseWs false cs

/-- `slugify` (source lines 279-283): strip, collapse whitespace runs to `_`,
replace characters outside `[A-Za-z0-9_.-]` by `_`, strip `_` and `.` from the
ends, and fall back to `"search"` when empty. -/
def slugify (value : String) : String :=
  let safe1 := collapseWs false (pyStripL value.data)
  let safe2 := safe1.map (fun c => if allowedChar c then c else '_')
  let safe3 := stripEnds isUnderscoreDot safe2
  if safe3 = [] then "search" else ⟨safe3⟩

/-- `sanitize_filename` (source line 286-287). -/
def sanitize_filename (value : String) : String := slugify value

/-- Python `str.replace("arXiv:", "")`: one left-to-right pass removing every
occurrence of the six-character marker. -/
def removeArxivL : List Char → List Char
  | 'a' :: 'r' :: 'X' :: 'i' :: 'v' :: ':' :: rest => removeArxivL rest
  | c :: cs => c :: removeArxivL cs
  | [] => []

/-- `abs_url.rstrip("/").split("/")[-1]`: drop trailing slashes, then keep the
suffix after the last remaining slash. -/
def lastSegmentL (l : List Char) : List Char :=
  ((l.reverse.dropWhile (fun c => decide (c = '/'))).takeWhile
    (fun c => decide (c ≠ '/'))).reverse

/-- String wrapper of `lastSegmentL`. -/
def lastSegment (s : String) : String := ⟨lastSegmentL s.data⟩

/-- One record dictionary as built by `extract_records` and annotated by
`download_papers`.  `pdf_url` is present only when truthy in the source, which
the `Option` models; the two download-outcome keys start absent (`none`). -/
structure Record where
  id : String
  title : String
  abs_url : String
  pdf_url : Option String
  pdf_local_path : Option String
  pdf_download_error : Option String
deriving DecidableEq

/-- One `li.arxiv-result` node of a parsed page, reduced to the results of the
three CSS queries `extract_records` performs on it: the stripped strings of
`p.title.is-5` (if present), the `(href, stripped text)` of the abs link (if
present), and the `href` of the pdf link (if present). -/
structure PageItem where
  title_el : Option (List String)
  abs_el : Option (String × String)
  pdf_el : Option String
deriving DecidableEq

/-- `pdf_url.endswith(".pdf")`. -/
def endsWithPdf (s : String) : Bool := List.isSuffixOf ".pdf".data s.data

/-- `pdf_url.split("?", 1)[0]`: the prefix before the first question mark. -/
def stripQuery (s : String) : String := ⟨s.data.takeWhile (fun c => decide (c ≠ '?'))⟩

/-- The identifier derivation of `extract_records` (source lines 167-169),
restated as a function of the link label and the stripped `abs_url`:
remove every `"arXiv:"` occurrence from the label, strip whitespace, and when
that is empty and the url nonempty fall back to the url's last path segment. -/
def identifierOf (label abs_url : String) : String :=
  let base := pyStrip ⟨removeArxivL label.data⟩
  if base = "" ∧ abs_url ≠ "" then lastSegment abs_url else base

/-- Spec-side identifier derivation, following the spec's words for comparison
with the code (claim C7): "the link's visible label with a known prefix
stripped, falling back to the last path segment of the URL when the label is
empty" — strip the `"arXiv:"` marker once, as a prefix only, and fall back
exactly when the label itself is empty. -/
def specIdentifierOf (label abs_url : String) : String :=
  if label = "" then lastSegment abs_url
  else if List.isPrefixOf "arXiv:".data label.data then ⟨label.data.drop 6⟩ else label

/-- `extract_records` (source lines 154-186) over the embedded page items. -/
def extract_records : List PageItem → List Record
  | [] => []
  | item :: rest =>
    let title := match item.title_el with
      | some parts => String.intercalate " " parts
      | none => ""
    match item.abs_el with
    | none => extract_records rest
    | some al =>
      let abs_url := pyStrip al.1
      let identifier0 := pyStrip ⟨removeArxivL al.2.data⟩
      let identifier := if identifier0 = "" ∧ abs_url ≠ "" then lastSegment abs_url
        else identifier0
      let pdf0 : Option String := match item.pdf_el with
        | none => none
        | some ph =>
          let p := pyStrip ph
          some (if p ≠ "" ∧ endsWithPdf p = false then stripQuery p else p)
      let pdf_url : Option String := match pdf0 with
        | none => none
        | some u => if u = "" then none else some u
      { id := identifier, title := title, abs_url := abs_url, pdf_url := pdf_url,
        pdf_local_path := none, pdf_download_error := none } :: extract_records rest

/-- Literal (case-sensitive) list-prefix test, used for Python's `in`. -/
def litPrefixCk : List Char → List Char → Bool
  | [], _ => true
  | _ :: _, [] => false
  | p :: ps, c :: cs => if p = c then litPrefixCk ps cs else false

/-- Python's case-sensitive substring test `pat in s` over lists. -/
def containsList (pat : List Char) : List Char → Bool
  | [] => litPrefixCk pat []
  | c :: cs => litPrefixCk pat (c :: cs) || containsList pat cs

/-- Python's case-sensitive substring test `pat in s`. -/
def containsStr (pat s : String) : Bool := containsList pat.data s.data

/-- Case-insensitive literal match (the regex runs with `re.IGNORECASE`):
consume `lit` from the front of the input, comparing via `Char.toLower`. -/
def matchLitCI : List Char → List Char → Option (List Char)
  | [], l => some l
  | _ :: _, [] => none
  | p :: ps, c :: cs => if c.toLower = p.toLower then matchLitCI ps cs else none

/-- `\s+`: one or more whitespace characters (greedy; the following pattern
pieces never start with whitespace, so greedy matching is faithful). -/
def ws1 : List Char → Option (List Char)
  | [] => none
  | c :: cs => if pyIsSpace c then some (cs.dropWhile pyIsSpace) else none

/-- The class `[\d,]` of the capture group. -/
def isDigitComma (c : Char) : Bool := c.isDigit || decide (c = ',')

/-- Greedy one-or-more run of characters satisfying `p`, returning the run and
the remainder. -/
def munch1 (p : Char → Bool) (l : List Char) : Option (List Char × List Char) :=
  if l.takeWhile p = [] then none else some (l.takeWhile p, l.dropWhile p)

/-- `group.replace(",", "")`: remove every comma from the captured group. -/
def stripCommas (l : List Char) : List Char := l.filter (fun c => decide (c ≠ ','))

/-- Python `int(s)` on the comma-stripped group: the decimal value when the
string is a nonempty digit run, and `none` — a raised `ValueError` — when it
is empty (the `[\d,]+` group may be all commas) or holds a non-digit. -/
def pyInt (l : List Char) : Option Nat :=
  if l ≠ [] ∧ l.all Char.isDigit = true then
    some (l.foldl (fun n c => n * 10 + (c.toNat - '0'.toNat)) 0)
  else none

/-- The alternation `(?:&ndash;|-)` of `RESULT_COUNT_PATTERN`: the literal
seven-character text `&ndash;` or a hyphen (NOT an en-dash character). -/
def sepMatch (l : List Char) : Option (List Char) :=
  match matchLitCI "&ndash;".data l with
  | some l2 => some l2
  | none => matchLitCI "-".data l

/-- Attempt to match `RESULT_COUNT_PATTERN` (source lines 34-37) at the front
of the input.  The outer `Option` is the regex match; on a match the inner
`Option Nat` is `int(group(1).replace(",", ""))`, whose `none` is the
`ValueError` Python raises when the captured group holds no digit.  The
pattern's adjacent pieces draw from disjoint character classes, so the greedy
matcher is faithful to Python's backtracking regex engine on this pattern. -/
def matchFrom (l : List Char) : Option (Option Nat) := do
  let a1 ← matchLitCI "Showing".data l
  let a2 ← ws1 a1
  let d1 ← munch1 Char.isDigit a2
  let a3 := d1.2.dropWhile pyIsSpace
  let a4 ← sepMatch a3
  let a5 := a4.dropWhile pyIsSpace
  let d2 ← munch1 Char.isDigit a5
  let a6 ← ws1 d2.2
  let a7 ← matchLitCI "of".data a6
  let a8 ← ws1 a7
  let g ← munch1 isDigitComma a8
  let a9 ← ws1 g.2
  let _ ← matchLitCI "results".data a9
  pure (pyInt (stripCommas g.1))

/-- `RESULT_COUNT_PATTERN.search`: try the pattern at every position, left to
right; a found match carries its (possibly failing) `int` conversion. -/
def reSearchTotal : List Char → Option (Option Nat)
  | [] => none
  | c :: cs =>
    match matchFrom (c :: cs) with
    | some n => some n
    | none => reSearchTotal cs

/-- `extract_total_results` (source lines 142-151) over the scanned element
texts, with its failure mode explicit: an element is considered only when its
text contains the exact substrings `"Showing"` and `"results"`; on the first
regex match the function returns `int` of the comma-stripped group —
`Except.error` models the uncaught `ValueError` that `int("")` raises at line
150 when the group holds no digit, which aborts the whole run. -/
def extract_total_resultsE : List String → Except Unit (Option Nat)
  | [] => Except.ok none
  | t :: ts =>
    if containsStr "Showing" t && containsStr "results" t then
      match reSearchTotal t.data with
      | some (some n) => Except.ok (some n)
      | some none => Except.error ()
      | none => extract_total_resultsE ts
    else extract_total_resultsE ts

/-- The loop-facing view of `extract_total_resultsE`, keeping the pagination
state's `Option Nat` type.  The `ValueError` path is collapsed to `none` here
(in the real program it aborts the run, a path none of the pagination claims
exercises: their hypotheses pin successfully parsed totals); the faithful
contract, with the error explicit, is `extract_total_resultsE`. -/
def extract_total_results (texts : List String) : Option Nat :=
  match extract_total_resultsE texts with
  | Except.ok r => r
  | Except.error _ => none

/-- A fetched-and-parsed listing page, reduced to what the two extractors
read from it. -/
structure Soup where
  items : List PageItem
  texts : List String

/-- The loop state of `collect_records`, with the issued request offsets
recorded as instrumentation (`fetches`). -/
structure CState where
  collected : List Record
  seen : List String
  start : Nat
  total_results : Option Nat
  page_index : Nat
  fetches : List Nat
deriving DecidableEq

/-- The body of the per-record dedup loop (source lines 253-261): skip an
empty id, skip an id already seen, otherwise append and remember it. -/
def dedupStep (acc : List Record × List String) (r : Record) : List Record × List String :=
  if r.id = "" then acc
  else if r.id ∈ acc.2 then acc
  else (acc.1 ++ [r], r.id :: acc.2)

/-- `max_pages is not None and page_index >= max_pages`. -/
def capReached : Option Nat → Nat → Bool
  | some m, pageIndex => decide (pageIndex ≥ m)
  | none, _ => false

/-- `total_results is not None and start >= total_results`. -/
def totalReached : Option Nat → Nat → Bool
  | some n, start => decide (start ≥ n)
  | none, _ => false

/-- The `while True` loop of `collect_records` (source lines 220-273) with
explicit fuel.  The server oracle is keyed by the request's start offset. -/
def collectLoop (server : Nat → Soup) (size : Nat) (maxPages : Option Nat) :
    Nat → CState → CState
  | 0, s => s
  | fuel + 1, s =>
    if capReached maxPages s.page_index then s
    else
      let soup := server s.start
      let s1 : CState := { s with fetches := s.fetches ++ [s.start] }
      let pageRecords := extract_records soup.items
      if pageRecords = [] then s1
      else
        let folded := pageRecords.foldl dedupStep (s1.collected, s1.seen)
        let s2 : CState := { s1 with collected := folded.1, seen := folded.2 }
        let s3 : CState :=
          if s2.total_results = none then
            { s2 with total_results := extract_total_results soup.texts }
          else s2
        let s4 : CState := { s3 with start := s3.start + size, page_index := s3.page_index + 1 }
        if totalReached s4.total_results s4.start then s4
        else collectLoop server size maxPages fuel s4

/-- The initial `CollectionState` of a run. -/
def initState : CState :=
  { collected := [], seen := [], start := 0, total_results := none,
    page_index := 0, fetches := [] }

/-- A full run of the pagination controller from the initial state. -/
def collectRun (server : Nat → Soup) (size : Nat) (maxPages : Option Nat)
    (fuel : Nat) : CState :=
  collectLoop server size maxPages fuel initState

/-- `collect_records`' return value: the accumulated record list. -/
def collect_records (server : Nat → Soup) (size : Nat) (maxPages : Option Nat)
    (fuel : Nat) : List Record :=
  (collectRun server size maxPages fuel).collected

/-- `data_dir / (sanitize_filename(identifier) + ".pdf")`. -/
def destPath (data_dir : String) (r : Record) : String :=
  data_dir ++ "/" ++ (sanitize_filename r.id ++ ".pdf")

/-- One iteration of `download_papers` (source lines 294-317): skip without a
usable url or id; if the destination exists record it without fetching;
otherwise perform the download attempt (the oracle covers the request, the
status check and the body write of the `try` block), counting one network
call, and record the path on success or the error message on failure. -/
def downloadOne (fetch : String → Except String String) (data_dir : String)
    (r : Record) (fs : List String) : Record × List String × Nat :=
  match r.pdf_url with
  | none => (r, fs, 0)
  | some url =>
    if url = "" ∨ r.id = "" then (r, fs, 0)
    else
      let destination := destPath data_dir r
      if destination ∈ fs then ({ r with pdf_local_path := some destination }, fs, 0)
      else
        match fetch url with
        | Except.ok _ => ({ r with pdf_local_path := some destination }, destination :: fs, 1)
        | Except.error e => ({ r with pdf_download_error := some e }, fs, 1)

/-- `download_papers` over a record list: returns the annotated records (same
order), the filesystem afterwards, and the number of network calls made. -/
def download_papers (fetch : String → Except String String) (data_dir : String) :
    List Record → List String → List Record × List String × Nat
  | [], fs => ([], fs, 0)
  | r :: rs, fs =>
    let one := downloadOne fetch data_dir r fs
    let rest := download_papers fetch data_dir rs one.2.1
    (one.1 :: rest.1, rest.2.1, one.2.2 + rest.2.2)

/-- The serialized envelope of `write_output` (source lines 340-352); the
`retrieved_at` timestamp is an opaque pass-through parameter. -/
structure Payload where
  query : String
  size : Nat
  order : String
  searchtype : String
  abstracts : String
  source : String
  retrieved_at : String
  count : Nat
  records : List Record
deriving DecidableEq

/-- `write_output` (source lines 320-357): derive the per-query directories,
run the artifact pass, and serialize the annotated records (the Python list is
mutated in place, so `len(records)` is the annotated list's length).  A
successful metadata write is modelled by returning the payload; the returned
triple also carries the filesystem, the network-call count and `base_dir`. -/
def write_output (fetch : String → Except String String) (records : List Record)
    (output_root query : String) (size : Nat)
    (order searchtype abstracts source retrieved_at : String) (fs : List String) :
    Payload × List String × Nat × String :=
  let query_slug := slugify query
  let base_dir := output_root ++ "/" ++ query_slug
  let data_dir := base_dir ++ "/" ++ "data"
  let res := download_papers fetch data_dir records fs
  ({ query := query, size := size, order := order, searchtype := searchtype,
     abstracts := abstracts, source := source, retrieved_at := retrieved_at,
     count := res.1.length, records := res.1 },
   res.2.1, res.2.2, base_dir)

/-- Concatenation of the record lists of the fetched pages (proof plumbing). -/
def concatAll : List (List Record) → List Record
  | [] => []
  | l :: ls => l ++ concatAll ls

/-- First-occurrence dedup of a record stream relative to an initial seen-set:
the functional reading of the accumulate-with-dedup loop. -/
def firstOccAux : List String → List Record → List Record
  | _, [] => []
  | seen, r :: rs =>
    if r.id = "" then firstOccAux seen rs
    else if r.id ∈ seen then firstOccAux seen rs
    else r :: firstOccAux (r.id :: seen) rs

/-- The seen-set after feeding a record stream through the dedup loop. -/
def seenAfter : List String → List Record → List String
  | seen, [] => seen
  | seen, r :: rs =>
    if r.id = "" then seenAfter seen rs
    else if r.id ∈ seen then seenAfter seen rs
    else seenAfter (r.id :: seen) rs

/-! ### Concrete fixtures for the verification instances -/

/-- A result item whose extraction yields id `"a"`. -/
def itemA : PageItem := ⟨none, some ("https://arxiv.org/abs/a", "arXiv:a"), none⟩

/-- A result item whose extraction yields id `"b"`. -/
def itemB : PageItem := ⟨none, some ("https://arxiv.org/abs/b", "arXiv:b"), none⟩

/-- A result item whose extraction yields id `"c"`. -/
def itemC : PageItem := ⟨none, some ("https://arxiv.org/abs/c", "arXiv:c"), none⟩

/-- The record extracted from `itemA`. -/
def recA : Record := ⟨"a", "", "https://arxiv.org/abs/a", none, none, none⟩

/-- A server whose first page declares 120 total results and whose pages are
never empty. -/
def srv1 : Nat → Soup := fun o =>
  if o = 0 then ⟨[itemA], ["Showing 1-1 of 120 results"]⟩ else ⟨[itemA], []⟩

/-- A server whose pages at offsets 0 and 5 share the id `"a"` and whose
page at offset 10 is empty. -/
def srv2 : Nat → Soup := fun o =>
  if o = 0 then ⟨[itemA, itemB], []⟩
  else if o = 5 then ⟨[itemA, itemC], []⟩
  else ⟨[], []⟩

/-- A server whose page at offset 0 declares 100 total results and whose
later pages declare 90. -/
def srv3 : Nat → Soup := fun o =>
  if o = 0 then ⟨[itemA], ["Showing 1-1 of 100 results"]⟩
  else ⟨[itemA], ["Showing 1-1 of 90 results"]⟩

/-- Records with downloadable artifact urls. -/
def recU1 : Record := ⟨"a", "", "", some "u1", none, none⟩

/-- Second artifact record. -/
def recU2 : Record := ⟨"b", "", "", some "u2", none, none⟩

/-- Third artifact record. -/
def recU3 : Record := ⟨"c", "", "", some "u3", none, none⟩

/-- A download oracle failing exactly on `recU2`'s url. -/
def fetch23 : String → Except String String := fun u =>
  if u = "u2" then Except.error "boom" else Except.ok "body"

/-- A download oracle that always succeeds. -/
def fetchOK : String → Except String String := fun _ => Except.ok "body"

/-- The data directory `write_output` derives for query `"q z"` under root
`"root"`. -/
def outDir : String := "root" ++ "/" ++ slugify "q z" ++ "/" ++ "data"

/-! ### Supporting lemmas -/

theorem foldl_dedupStep_eq (l : List Record) :
    ∀ (c : List Record) (sn : List String),
      l.foldl dedupStep (c, sn) = (c ++ firstOccAux sn l, seenAfter sn l) := by
  induction l with
  | nil => intro c sn; simp [firstOccAux, seenAfter]
  | cons r rs ih =>
    intro c sn
    simp only [List.foldl_cons, firstOccAux, seenAfter, dedupStep]
    by_cases h1 : r.id = ""
    · simp [h1, ih]
    · by_cases h2 : r.id ∈ sn
      · simp [h1, h2, ih]
      · simp [h1, h2, ih, List.append_assoc]

theorem firstOccAux_append (sn : List String) (A B : List Record) :
    firstOccAux sn (A ++ B) = firstOccAux sn A ++ firstOccAux (seenAfter sn A) B := by
  have h := foldl_dedupStep_eq (A ++ B) [] sn
  rw [List.foldl_append, foldl_dedupStep_eq A [] sn, List.nil_append,
    foldl_dedupStep_eq B (firstOccAux sn A) (seenAfter sn A), List.nil_append] at h
  exact (Prod.mk.injEq _ _ _ _ ▸ h).1.symm

theorem seenAfter_append (sn : List String) (A B : List Record) :
    seenAfter sn (A ++ B) = seenAfter (seenAfter sn A) B := by
  have h := foldl_dedupStep_eq (A ++ B) [] sn
  rw [List.foldl_append, foldl_dedupStep_eq A [] sn, List.nil_append,
    foldl_dedupStep_eq B (firstOccAux sn A) (seenAfter sn A), List.nil_append] at h
  exact (Prod.mk.injEq _ _ _ _ ▸ h).2.symm

theorem collectLoop_step_stop (server : Nat → Soup) (size : Nat) (mp : Option Nat)
    (f : Nat) (s : CState)
    (hcap : capReached mp s.page_index = false)
    (hpr : extract_records (server s.start).items ≠ [])
    (ht : totalReached
      (if s.total_results = none then extract_total_results (server s.start).texts
       else s.total_results) (s.start + size) = true) :
    collectLoop server size mp (f + 1) s =
      { collected := s.collected ++ firstOccAux s.seen (extract_records (server s.start).items),
        seen := seenAfter s.seen (extract_records (server s.start).items),
        start := s.start + size,
        total_results := if s.total_results = none
          then extract_total_results (server s.start).texts else s.total_results,
        page_index := s.page_index + 1,
        fetches := s.fetches ++ [s.start] } := by
  cases htot : s.total_results with
  | none => simp_all [collectLoop, foldl_dedupStep_eq]
  | some t => simp_all [collectLoop, foldl_dedupStep_eq]

theorem collectLoop_step_go (server : Nat → Soup) (size : Nat) (mp : Option Nat)
    (f : Nat) (s : CState)
    (hcap : capReached mp s.page_index = false)
    (hpr : extract_records (server s.start).items ≠ [])
    (ht : totalReached
      (if s.total_results = none then extract_total_results (server s.start).texts
       else s.total_results) (s.start + size) = false) :
    collectLoop server size mp (f + 1) s =
      collectLoop server size mp f
        { collected := s.collected
            ++ firstOccAux s.seen (extract_records (server s.start).items),
          seen := seenAfter s.seen (extract_records (server s.start).items),
          start := s.start + size,
          total_results := if s.total_results = none
            then extract_total_results (server s.start).texts else s.total_results,
          page_index := s.page_index + 1,
          fetches := s.fetches ++ [s.start] } := by
  cases htot : s.total_results with
  | none => simp_all [collectLoop, foldl_dedupStep_eq]
  | some t => simp_all [collectLoop, foldl_dedupStep_eq]

theorem collectLoop_fetch_dedup (server : Nat → Soup) (size : Nat) (mp : Option Nat) :
    ∀ (fuel : Nat) (s : CState), ∃ offs : List Nat,
      (collectLoop server size mp fuel s).fetches = s.fetches ++ offs
      ∧ (collectLoop server size mp fuel s).collected
          = s.collected ++ firstOccAux s.seen
              (concatAll (offs.map fun o => extract_records (server o).items))
      ∧ (collectLoop server size mp fuel s).seen
          = seenAfter s.seen
              (concatAll (offs.map fun o => extract_records (server o).items)) := by
  intro fuel
  induction fuel with
  | zero =>
    intro s
    exact ⟨[], by simp [collectLoop, concatAll, firstOccAux, seenAfter]⟩
  | succ f ih =>
    intro s
    by_cases hcap : capReached mp s.page_index = true
    · refine ⟨[], ?_⟩
      simp [collectLoop, hcap, concatAll, firstOccAux, seenAfter]
    · by_cases hpr : extract_records (server s.start).items = []
      · refine ⟨[s.start], ?_⟩
        simp [collectLoop, hcap, hpr, concatAll, firstOccAux, seenAfter]
      · have hcap' : capReached mp s.page_index = false := by
          cases h : capReached mp s.page_index
          · rfl
          · exact absurd h hcap
        cases ht : totalReached
            (if s.total_results = none then extract_total_results (server s.start).texts
             else s.total_results) (s.start + size) with
        | true =>
          refine ⟨[s.start], ?_, ?_, ?_⟩ <;>
            simp [collectLoop_step_stop server size mp f s hcap' hpr ht, concatAll]
        | false =>
          obtain ⟨offs, h1, h2, h3⟩ := ih
            { collected := s.collected
                ++ firstOccAux s.seen (extract_records (server s.start).items),
              seen := seenAfter s.seen (extract_records (server s.start).items),
              start := s.start + size,
              total_results := if s.total_results = none
                then extract_total_results (server s.start).texts else s.total_results,
              page_index := s.page_index + 1,
              fetches := s.fetches ++ [s.start] }
          refine ⟨s.start :: offs, ?_, ?_, ?_⟩
          · rw [collectLoop_step_go server size mp f s hcap' hpr ht, h1]
            simp
          · rw [collectLoop_step_go server size mp f s hcap' hpr ht, h2]
            simp [List.map_cons, concatAll, firstOccAux_append, List.append_assoc]
          · rw [collectLoop_step_go server size mp f s hcap' hpr ht, h3]
            simp [List.map_cons, concatAll, seenAfter_append]

theorem firstOccAux_id_ne (l : List Record) :
    ∀ (sn : List String) (r : Record), r ∈ firstOccAux sn l → r.id ≠ "" := by
  induction l with
  | nil => intro sn r hr; simp [firstOccAux] at hr
  | cons x xs ih =>
    intro sn r hr
    by_cases h1 : x.id = ""
    · exact ih sn r (by simpa [firstOccAux, h1] using hr)
    · by_cases h2 : x.id ∈ sn
      · exact ih sn r (by simpa [firstOccAux, h1, h2] using hr)
      · rw [firstOccAux, if_neg h1, if_neg h2] at hr
        rcases List.mem_cons.mp hr with rfl | hr
        · exact h1
        · exact ih (x.id :: sn) r hr

theorem seenAfter_ne (l : List Record) :
    ∀ (sn : List String) (k : String), k ∈ seenAfter sn l → k ∈ sn ∨ k ≠ "" := by
  induction l with
  | nil => intro sn k hk; exact Or.inl (by simpa [seenAfter] using hk)
  | cons x xs ih =>
    intro sn k hk
    by_cases h1 : x.id = ""
    · exact ih sn k (by simpa [seenAfter, h1] using hk)
    · by_cases h2 : x.id ∈ sn
      · exact ih sn k (by simpa [seenAfter, h1, h2] using hk)
      · rw [seenAfter, if_neg h1, if_neg h2] at hk
        rcases ih (x.id :: sn) k hk with h | h
        · rcases List.mem_cons.mp h with rfl | h
          · exact Or.inr h1
          · exact Or.inl h
        · exact Or.inr h

theorem firstOccAux_countP_zero (k : String) :
    ∀ (l : List Record) (sn : List String), k ∈ sn →
      (firstOccAux sn l).countP (fun r => decide (r.id = k)) = 0 := by
  intro l
  induction l with
  | nil => intro sn _; simp [firstOccAux]
  | cons x xs ih =>
    intro sn hk
    by_cases h1 : x.id = ""
    · rw [firstOccAux, if_pos h1]; exact ih sn hk
    · by_cases h2 : x.id ∈ sn
      · rw [firstOccAux, if_neg h1, if_pos h2]; exact ih sn hk
      · rw [firstOccAux, if_neg h1, if_neg h2]
        have hxk : x.id ≠ k := fun h => h2 (h ▸ hk)
        rw [List.countP_cons]
        simp only [decide_eq_true_eq]
        rw [if_neg hxk]
        simpa using ih (x.id :: sn) (List.mem_cons_of_mem _ hk)

theorem firstOccAux_countP_one (k : String) (hk : k ≠ "") :
    ∀ (l : List Record) (sn : List String), k ∉ sn →
      (∃ r, r ∈ l ∧ r.id = k) →
      (firstOccAux sn l).countP (fun r => decide (r.id = k)) = 1 := by
  intro l
  induction l with
  | nil => intro sn _ hex; rcases hex with ⟨r, hr, _⟩; simp at hr
  | cons x xs ih =>
    intro sn hsn hex
    by_cases h1 : x.id = ""
    · rw [firstOccAux, if_pos h1]
      refine ih sn hsn ?_
      rcases hex with ⟨r, hr, hid⟩
      rcases List.mem_cons.mp hr with rfl | hr
      · exact absurd (h1 ▸ hid) (Ne.symm hk)
      · exact ⟨r, hr, hid⟩
    · by_cases h2 : x.id ∈ sn
      · rw [firstOccAux, if_neg h1, if_pos h2]
        refine ih sn hsn ?_
        rcases hex with ⟨r, hr, hid⟩
        rcases List.mem_cons.mp hr with rfl | hr
        · exact absurd (hid ▸ h2) hsn
        · exact ⟨r, hr, hid⟩
      · rw [firstOccAux, if_neg h1, if_neg h2]
        by_cases hxk : x.id = k
        · rw [List.countP_cons]
          simp only [decide_eq_true_eq]
          rw [if_pos hxk]
          have h0 := firstOccAux_countP_zero k xs (x.id :: sn) (by simp [hxk])
          omega
        · rw [List.countP_cons]
          simp only [decide_eq_true_eq]
          rw [if_neg hxk]
          have : (firstOccAux (x.id :: sn) xs).countP (fun r => decide (r.id = k)) = 1 := by
            refine ih (x.id :: sn) ?_ ?_
            · intro h
              rcases List.mem_cons.mp h with h | h
              · exact hxk h.symm
              · exact hsn h
            · rcases hex with ⟨r, hr, hid⟩
              rcases List.mem_cons.mp hr with rfl | hr
              · exact absurd hid hxk
              · exact ⟨r, hr, hid⟩
          simpa using this

theorem firstOccAux_find (l : List Record) :
    ∀ (sn : List String) (r : Record), r ∈ firstOccAux sn l →
      r.id ∉ sn ∧ l.find? (fun x => decide (x.id = r.id)) = some r := by
  induction l with
  | nil => intro sn r hr; simp [firstOccAux] at hr
  | cons x xs ih =>
    intro sn r hr
    by_cases h1 : x.id = ""
    · rw [firstOccAux, if_pos h1] at hr
      obtain ⟨hns, hfind⟩ := ih sn r hr
      have hrne : r.id ≠ "" := firstOccAux_id_ne xs sn r hr
      have hxr : x.id ≠ r.id := by rw [h1]; exact (Ne.symm hrne)
      refine ⟨hns, ?_⟩
      rw [List.find?_cons_of_neg _ (by simpa using hxr)]
      exact hfind
    · by_cases h2 : x.id ∈ sn
      · rw [firstOccAux, if_neg h1, if_pos h2] at hr
        obtain ⟨hns, hfind⟩ := ih sn r hr
        have hxr : x.id ≠ r.id := fun h => hns (h ▸ h2)
        refine ⟨hns, ?_⟩
        rw [List.find?_cons_of_neg _ (by simpa using hxr)]
        exact hfind
      · rw [firstOccAux, if_neg h1, if_neg h2] at hr
        rcases List.mem_cons.mp hr with rfl | hr
        · exact ⟨h2, by rw [List.find?_cons_of_pos _ (by simp)]⟩
        · obtain ⟨hns, hfind⟩ := ih (x.id :: sn) r hr
          have hxr : x.id ≠ r.id := fun h => hns (by simp [h])
          refine ⟨fun h => hns (List.mem_cons_of_mem _ h), ?_⟩
          rw [List.find?_cons_of_neg _ (by simpa using hxr)]
          exact hfind

/-- Claim C2: within one run of `collect_records`, the accumulated sequence is
exactly the first-occurrence dedup of the concatenated record streams of the
fetched pages: an id shared across pages appears exactly once, the record kept
for an id is the first record of the stream carrying that id (so the first
occurrence's field values are retained), and the order is first-seen order
across pages and within-page item order. -/
theorem claim2_dedup_first_seen (server : Nat → Soup) (size : Nat)
    (mp : Option Nat) (fuel : Nat) :
    (collectRun server size mp fuel).collected
      = firstOccAux []
          (concatAll (((collectRun server size mp fuel).fetches).map
            fun o => extract_records (server o).items))
    ∧ (∀ k : String, k ≠ "" →
        (∃ r, r ∈ concatAll (((collectRun server size mp fuel).fetches).map
            fun o => extract_records (server o).items) ∧ r.id = k) →
        ((collectRun server size mp fuel).collected.countP
          (fun r => decide (r.id = k))) = 1)
    ∧ (∀ r ∈ (collectRun server size mp fuel).collected,
        (concatAll (((collectRun server size mp fuel).fetches).map
          fun o => extract_records (server o).items)).find?
            (fun x => decide (x.id = r.id)) = some r) := by
  obtain ⟨offs, hf, hc, hs⟩ := collectLoop_fetch_dedup server size mp fuel initState
  have hf' : (collectRun server size mp fuel).fetches = offs := by
    simpa [collectRun, initState] using hf
  have hc' : (collectRun server size mp fuel).collected
      = firstOccAux [] (concatAll (offs.map fun o => extract_records (server o).items)) := by
    simpa [collectRun, initState] using hc
  refine ⟨by rw [hf', hc'], ?_, ?_⟩
  · intro k hk hex
    rw [hf'] at hex
    rw [hc']
    exact firstOccAux_countP_one k hk _ [] (by simp) hex
  · intro r hr
    rw [hc'] at hr
    rw [hf']
    exact (firstOccAux_find _ [] r hr).2

/-- Claim C4: when extraction of the current page yields zero records the loop
returns immediately: the state is unchanged except for the recorded fetch, so
the accumulator, the seen-set, the declared total, the offset and the page
index are exactly those built from the prior pages, and neither dedup
insertion nor total-count capture happens for the empty page. -/
theorem claim4_empty_page_stops (server : Nat → Soup) (size : Nat)
    (mp : Option Nat) (fuel : Nat) (s : CState)
    (hcap : capReached mp s.page_index = false)
    (hemp : extract_records (server s.start).items = []) :
    collectLoop server size mp (fuel + 1) s
      = { s with fetches := s.fetches ++ [s.start] } := by
  simp [collectLoop, hcap, hemp]

/-- Claim C10: every record accumulated by `collect_records` has a nonempty
id, and the seen-id set only ever holds nonempty ids: an extracted record
whose id is empty is discarded before deduplication and never enters either. -/
theorem claim10_nonempty_ids (server : Nat → Soup) (size : Nat)
    (mp : Option Nat) (fuel : Nat) :
    (∀ r ∈ (collectRun server size mp fuel).collected, r.id ≠ "")
    ∧ (∀ k ∈ (collectRun server size mp fuel).seen, k ≠ "") := by
  obtain ⟨offs, hf, hc, hs⟩ := collectLoop_fetch_dedup server size mp fuel initState
  constructor
  · intro r hr
    rw [show (collectRun server size mp fuel).collected
        = firstOccAux [] (concatAll (offs.map fun o => extract_records (server o).items))
      from by simpa [collectRun, initState] using hc] at hr
    exact firstOccAux_id_ne _ [] r hr
  · intro k hk
    rw [show (collectRun server size mp fuel).seen
        = seenAfter [] (concatAll (offs.map fun o => extract_records (server o).items))
      from by simpa [collectRun, initState] using hs] at hk
    rcases seenAfter_ne _ [] k hk with h | h
    · simp at h
    · exact h

/-- Claim C1: with `size = 50`, no page cap, the first page reporting a total
of 120 and the pages at offsets 0, 50 and 100 each extracting at least one
record, the pagination loop performs exactly 3 page fetches with offset
sequence 0, 50, 100 and never issues a request with offset 150: after
advancing to offset 150 it stops because the offset reached the declared
total (fuel at least 3 suffices; the loop stops by itself). -/
theorem claim1_three_fetches (server : Nat → Soup) (fuel : Nat)
    (hfuel : 3 ≤ fuel)
    (h0 : extract_records (server 0).items ≠ [])
    (h50 : extract_records (server 50).items ≠ [])
    (h100 : extract_records (server 100).items ≠ [])
    (hT : extract_total_results (server 0).texts = some 120) :
    (collectRun server 50 none fuel).fetches = [0, 50, 100]
    ∧ (collectRun server 50 none fuel).fetches.length = 3
    ∧ 150 ∉ (collectRun server 50 none fuel).fetches := by
  obtain ⟨k, rfl⟩ : ∃ k, fuel = k + 1 + 1 + 1 := ⟨fuel - 3, by omega⟩
  have hfe : (collectRun server 50 none (k + 1 + 1 + 1)).fetches = [0, 50, 100] := by
    simp [collectRun, initState, collectLoop, h0, h50, h100, hT, capReached,
      totalReached, foldl_dedupStep_eq]
  refine ⟨hfe, by rw [hfe]; rfl, by rw [hfe]; decide⟩

/-- Claim C3: the declared total is learned at most once.  First, once
`total_results` is set to some value it is never re-derived or overwritten by
any further iteration of the pagination loop.  Second, in the concrete
scenario where the page at offset 0 reports total 100 and the page at offset
50 reports total 90 (both pages nonempty, `size = 50`, no cap), the stopping
threshold remains 100: the run finishes with `total_results = some 100`,
having fetched offsets 0 and 50. -/
theorem claim3_total_first_wins :
    (∀ (server : Nat → Soup) (size : Nat) (mp : Option Nat) (fuel : Nat)
        (s : CState) (t : Nat), s.total_results = some t →
        (collectLoop server size mp fuel s).total_results = some t)
    ∧ (∀ (server : Nat → Soup) (fuel : Nat), 2 ≤ fuel →
        extract_records (server 0).items ≠ [] →
        extract_records (server 50).items ≠ [] →
        extract_total_results (server 0).texts = some 100 →
        extract_total_results (server 50).texts = some 90 →
        (collectRun server 50 none fuel).total_results = some 100
        ∧ (collectRun server 50 none fuel).fetches = [0, 50]) := by
  constructor
  · intro server size mp fuel
    induction fuel with
    | zero => intro s t h; simpa [collectLoop] using h
    | succ f ih =>
      intro s t h
      by_cases hcap : capReached mp s.page_index = true
      · simpa [collectLoop, hcap] using h
      · have hcap' : capReached mp s.page_index = false := by
          cases hc : capReached mp s.page_index
          · rfl
          · exact absurd hc hcap
        by_cases hpr : extract_records (server s.start).items = []
        · simpa [collectLoop, hcap, hpr] using h
        · cases ht : totalReached
              (if s.total_results = none then extract_total_results (server s.start).texts
               else s.total_results) (s.start + size) with
          | true =>
            rw [collectLoop_step_stop server size mp f s hcap' hpr ht]
            simp [h]
          | false =>
            rw [collectLoop_step_go server size mp f s hcap' hpr ht]
            exact ih _ t (by simp [h])
  · intro server fuel hfuel h0 h50 hT0 hT50
    obtain ⟨k, rfl⟩ : ∃ k, fuel = k + 1 + 1 := ⟨fuel - 2, by omega⟩
    constructor
    · simp [collectRun, initState, collectLoop, h0, h50, hT0, capReached,
        totalReached, foldl_dedupStep_eq]
    · simp [collectRun, initState, collectLoop, h0, h50, hT0, capReached,
        totalReached, foldl_dedupStep_eq]

theorem mem_of_mem_dropWhileCh (p : Char → Bool) :
    ∀ (l : List Char) (c : Char), c ∈ l.dropWhile p → c ∈ l := by
  intro l
  induction l with
  | nil => simp
  | cons a as ih =>
    intro c hc
    rw [List.dropWhile_cons] at hc
    by_cases ha : p a = true
    · rw [if_pos ha] at hc
      exact List.mem_cons_of_mem _ (ih c hc)
    · rw [if_neg ha] at hc
      exact hc

theorem mem_of_mem_stripEnds (p : Char → Bool) (l : List Char) (c : Char)
    (hc : c ∈ stripEnds p l) : c ∈ l := by
  unfold stripEnds at hc
  rw [List.mem_reverse] at hc
  have h1 := mem_of_mem_dropWhileCh p _ c hc
  rw [List.mem_reverse] at h1
  exact mem_of_mem_dropWhileCh p _ c h1

theorem head?_dropWhileCh (p : Char → Bool) :
    ∀ (l : List Char) (c : Char), (l.dropWhile p).head? = some c → p c = false := by
  intro l
  induction l with
  | nil => simp [List.dropWhile]
  | cons a as ih =>
    intro c
    rw [List.dropWhile_cons]
    by_cases ha : p a = true
    · rw [if_pos ha]; exact ih c
    · rw [if_neg ha]
      intro h
      obtain rfl : a = c := by simpa using h
      simpa using ha

theorem dropWhileCh_suffix_ex (p : Char → Bool) :
    ∀ l : List Char, ∃ u, u ++ l.dropWhile p = l := by
  intro l
  induction l with
  | nil => exact ⟨[], rfl⟩
  | cons a as ih =>
    rw [List.dropWhile_cons]
    by_cases ha : p a = true
    · obtain ⟨u, hu⟩ := ih
      exact ⟨a :: u, by rw [if_pos ha]; simpa using hu⟩
    · exact ⟨[], by rw [if_neg ha]; rfl⟩

theorem head?_stripEnds (p : Char → Bool) (l : List Char) (c : Char)
    (hc : (stripEnds p l).head? = some c) : p c = false := by
  obtain ⟨u, hu⟩ := dropWhileCh_suffix_ex p (l.dropWhile p).reverse
  have hA : l.dropWhile p = (stripEnds p l) ++ u.reverse := by
    unfold stripEnds
    calc l.dropWhile p = (u ++ ((l.dropWhile p).reverse.dropWhile p)).reverse := by
          rw [hu, List.reverse_reverse]
      _ = ((l.dropWhile p).reverse.dropWhile p).reverse ++ u.reverse := by
          rw [List.reverse_append]
  have hne : stripEnds p l ≠ [] := by
    intro h
    rw [h] at hc
    simp at hc
  have hhead : (l.dropWhile p).head? = some c := by
    rw [hA]
    cases hse : stripEnds p l with
    | nil => exact absurd hse hne
    | cons x xs =>
      rw [hse] at hc
      simpa using hc
  exact head?_dropWhileCh p l c hhead

theorem revHead?_stripEnds (p : Char → Bool) (l : List Char) (c : Char)
    (hc : (stripEnds p l).reverse.head? = some c) : p c = false := by
  unfold stripEnds at hc
  rw [List.reverse_reverse] at hc
  exact head?_dropWhileCh p _ c hc

theorem slugify_cases (s : String) :
    slugify s = "search"
      ∨ ∃ l, l ≠ [] ∧ slugify s = ⟨l⟩
          ∧ l = stripEnds isUnderscoreDot
              ((collapseWs false (pyStripL s.data)).map
                (fun c => if allowedChar c then c else '_')) := by
  by_cases h : stripEnds isUnderscoreDot
      ((collapseWs false (pyStripL s.data)).map
        (fun c => if allowedChar c then c else '_')) = []
  · left; simp [slugify, h]
  · right; exact ⟨_, h, by simp [slugify, h], rfl⟩

/-- Claim C6: `slugify` collapses whitespace runs to a single underscore,
replaces characters outside `[A-Za-z0-9_.-]` with underscore, strips leading
and trailing underscores and dots, and falls back to the fixed name `search`
when the result is empty.  Concretely on the spec's examples, and in general:
the result is never empty, every character of the result is in the allowed
class (in particular no whitespace survives), and neither the first nor the
last character is an underscore or a dot. -/
theorem claim6_slugify :
    slugify "quantum computing!!" = "quantum_computing"
    ∧ slugify "   " = "search"
    ∧ slugify "a \t b" = "a_b"
    ∧ ∀ s : String, slugify s ≠ ""
        ∧ (∀ c ∈ (slugify s).data, allowedChar c = true)
        ∧ (∀ c, (slugify s).data.head? = some c → isUnderscoreDot c = false)
        ∧ (∀ c, (slugify s).data.reverse.head? = some c → isUnderscoreDot c = false) := by
  refine ⟨by decide, by decide, by decide, ?_⟩
  intro s
  rcases slugify_cases s with h | ⟨l, hne, hres, hl⟩
  · rw [h]
    refine ⟨by decide, ?_, ?_, ?_⟩
    · intro c hc
      have : c ∈ ['s', 'e', 'a', 'r', 'c', 'h'] := hc
      fin_cases this <;> decide
    · intro c hc
      obtain rfl : 's' = c := by simpa using hc
      decide
    · intro c hc
      obtain rfl : 'h' = c := by simpa using hc
      decide
  · rw [hres]
    refine ⟨?_, ?_, ?_, ?_⟩
    · intro h
      apply hne
      have : l = ("" : String).data := congrArg String.data h
      simpa using this
    · intro c hc
      have hc' : c ∈ l := hc
      rw [hl] at hc'
      have hmem := mem_of_mem_stripEnds _ _ _ hc'
      rw [List.mem_map] at hmem
      obtain ⟨a, _, ha⟩ := hmem
      by_cases haa : allowedChar a = true
      · rw [if_pos haa] at ha
        exact ha ▸ haa
      · rw [if_neg haa] at ha
        rw [← ha]
        decide
    · intro c hc
      exact head?_stripEnds _ _ c (hl ▸ hc)
    · intro c hc
      exact revHead?_stripEnds _ _ c (hl ▸ hc)

theorem downloadOne_fs_sub (fetch : String → Except String String) (dir : String)
    (r : Record) (fs : List String) : fs ⊆ (downloadOne fetch dir r fs).2.1 := by
  cases hu : r.pdf_url with
  | none => simp [downloadOne, hu]
  | some url =>
    by_cases hsk : url = "" ∨ r.id = ""
    · simp [downloadOne, hu, hsk]
    · by_cases hdest : destPath dir r ∈ fs
      · simp [downloadOne, hu, hsk, hdest]
      · cases hf : fetch url with
        | ok b =>
          simp only [downloadOne, hu, if_neg hsk, if_neg hdest, hf]
          exact fun x hx => List.mem_cons_of_mem _ hx
        | error e => simp [downloadOne, hu, hsk, hdest, hf]

theorem download_fs_sub (fetch : String → Except String String) (dir : String) :
    ∀ (rs : List Record) (fs : List String),
      fs ⊆ (download_papers fetch dir rs fs).2.1 := by
  intro rs
  induction rs with
  | nil => intro fs; simp [download_papers]
  | cons r rs ih =>
    intro fs
    simp only [download_papers]
    exact (downloadOne_fs_sub fetch dir r fs).trans (ih _)

theorem downloadOne_shape (fetch : String → Except String String) (dir : String)
    (r : Record) (fs : List String) :
    (downloadOne fetch dir r fs).1 = r
    ∨ (downloadOne fetch dir r fs).1 = { r with pdf_local_path := some (destPath dir r) }
    ∨ ∃ e, (downloadOne fetch dir r fs).1 = { r with pdf_download_error := some e } := by
  cases hu : r.pdf_url with
  | none => left; simp [downloadOne, hu]
  | some url =>
    by_cases hsk : url = "" ∨ r.id = ""
    · left; simp [downloadOne, hu, hsk]
    · by_cases hdest : destPath dir r ∈ fs
      · right; left; simp [downloadOne, hu, hsk, hdest]
      · cases hf : fetch url with
        | ok b => right; left; simp [downloadOne, hu, hsk, hdest, hf]
        | error e => right; right; exact ⟨e, by simp [downloadOne, hu, hsk, hdest, hf]⟩

/-- Claim C8: the artifact pass never drops or reorders records and never sets
both outcome fields on a record that entered clean; and in the concrete
three-record scenario where the downloads of records 1 and 3 succeed, the
download of record 2 fails with message `e`, no destination pre-exists and
the destinations of the three records are distinct, records 1 and 3 acquire
`pdf_local_path`, record 2 acquires `pdf_download_error e` (its other fields,
in particular `pdf_local_path`, unchanged), the pass makes 3 network calls,
and `write_output` still serializes all three records, in order, with their
identifiers intact. -/
theorem claim8_partial_failure :
    (∀ (fetch : String → Except String String) (dir : String)
        (records : List Record) (fs : List String),
      List.Forall₂ (fun r r' => r'.id = r.id ∧
          (r.pdf_local_path = none → r.pdf_download_error = none →
            (r'.pdf_local_path = none ∨ r'.pdf_download_error = none)))
        records (download_papers fetch dir records fs).1)
    ∧ (∀ (fetch : String → Except String String)
        (output_root query order searchtype abstracts source retrieved_at dir : String)
        (size : Nat) (fs : List String) (r1 r2 r3 : Record) (u1 u2 u3 b1 b3 e : String),
        dir = output_root ++ "/" ++ slugify query ++ "/" ++ "data" →
        r1.pdf_url = some u1 → r2.pdf_url = some u2 → r3.pdf_url = some u3 →
        u1 ≠ "" → u2 ≠ "" → u3 ≠ "" →
        r1.id ≠ "" → r2.id ≠ "" → r3.id ≠ "" →
        fetch u1 = Except.ok b1 → fetch u2 = Except.error e → fetch u3 = Except.ok b3 →
        destPath dir r1 ∉ fs → destPath dir r2 ∉ fs → destPath dir r3 ∉ fs →
        destPath dir r2 ≠ destPath dir r1 → destPath dir r3 ≠ destPath dir r1 →
        download_papers fetch dir [r1, r2, r3] fs
          = ([{ r1 with pdf_local_path := some (destPath dir r1) },
              { r2 with pdf_download_error := some e },
              { r3 with pdf_local_path := some (destPath dir r3) }],
             destPath dir r3 :: destPath dir r1 :: fs, 3)
        ∧ (write_output fetch [r1, r2, r3] output_root query size order searchtype
            abstracts source retrieved_at fs).1.records
            = [{ r1 with pdf_local_path := some (destPath dir r1) },
               { r2 with pdf_download_error := some e },
               { r3 with pdf_local_path := some (destPath dir r3) }]
        ∧ (write_output fetch [r1, r2, r3] output_root query size order searchtype
            abstracts source retrieved_at fs).1.count = 3
        ∧ (write_output fetch [r1, r2, r3] output_root query size order searchtype
            abstracts source retrieved_at fs).1.records.map Record.id
            = [r1.id, r2.id, r3.id]) := by
  constructor
  · intro fetch dir records fs
    induction records generalizing fs with
    | nil => simp [download_papers]
    | cons r rs ih =>
      simp only [download_papers]
      refine List.Forall₂.cons ?_ (ih _)
      rcases downloadOne_shape fetch dir r fs with h | h | ⟨e, h⟩
      · rw [h]; exact ⟨rfl, fun hp he => Or.inl hp⟩
      · rw [h]; exact ⟨rfl, fun hp he => Or.inr he⟩
      · rw [h]; exact ⟨rfl, fun hp he => Or.inl hp⟩
  · intro fetch output_root query order searchtype abstracts source retrieved_at dir
      size fs r1 r2 r3 u1 u2 u3 b1 b3 e hdir h1u h2u h3u h1u' h2u' h3u' h1i h2i h3i
      hf1 hf2 hf3 hd1 hd2 hd3 hd21 hd31
    have hdl : download_papers fetch dir [r1, r2, r3] fs
        = ([{ r1 with pdf_local_path := some (destPath dir r1) },
            { r2 with pdf_download_error := some e },
            { r3 with pdf_local_path := some (destPath dir r3) }],
           destPath dir r3 :: destPath dir r1 :: fs, 3) := by
      simp [download_papers, downloadOne, h1u, h2u, h3u, h1u', h2u', h3u',
        h1i, h2i, h3i, hf1, hf2, hf3, hd1, hd2, hd3, hd21, hd31]
    refine ⟨hdl, ?_, ?_, ?_⟩
    · show (write_output fetch [r1, r2, r3] output_root query size order searchtype
        abstracts source retrieved_at fs).1.records = _
      simp only [write_output]
      rw [← hdir, hdl]
    · show (write_output fetch [r1, r2, r3] output_root query size order searchtype
        abstracts source retrieved_at fs).1.count = 3
      simp only [write_output]
      rw [← hdir, hdl]
      rfl
    · show (write_output fetch [r1, r2, r3] output_root query size order searchtype
        abstracts source retrieved_at fs).1.records.map Record.id = _
      simp only [write_output]
      rw [← hdir, hdl]
      simp

theorem download_rerun (fetch : String → Except String String) (dir : String) :
    ∀ (records : List Record) (fs : List String),
      (∀ r' ∈ (download_papers fetch dir records fs).1, r'.pdf_download_error = none) →
      download_papers fetch dir records ((download_papers fetch dir records fs).2.1)
        = ((download_papers fetch dir records fs).1,
           (download_papers fetch dir records fs).2.1, 0) := by
  intro records
  induction records with
  | nil => intro fs h; simp [download_papers]
  | cons r rs ih =>
    intro fs h
    have hA : (downloadOne fetch dir r fs).1.pdf_download_error = none := by
      apply h
      simp [download_papers]
    have hB : ∀ r' ∈ (download_papers fetch dir rs (downloadOne fetch dir r fs).2.1).1,
        r'.pdf_download_error = none := by
      intro r' hr'
      apply h
      simp [download_papers]
      exact Or.inr hr'
    have hsub : (downloadOne fetch dir r fs).2.1
        ⊆ (download_papers fetch dir rs (downloadOne fetch dir r fs).2.1).2.1 :=
      download_fs_sub fetch dir rs _
    have hone : downloadOne fetch dir r
        ((download_papers fetch dir rs (downloadOne fetch dir r fs).2.1).2.1)
        = ((downloadOne fetch dir r fs).1,
           (download_papers fetch dir rs (downloadOne fetch dir r fs).2.1).2.1, 0) := by
      cases hu : r.pdf_url with
      | none => simp [downloadOne, hu]
      | some url =>
        by_cases hsk : url = "" ∨ r.id = ""
        · simp [downloadOne, hu, hsk]
        · by_cases hdest : destPath dir r ∈ fs
          · have h21 : (downloadOne fetch dir r fs).2.1 = fs := by
              simp [downloadOne, hu, hsk, hdest]
            rw [h21] at hsub ⊢
            have hmem : destPath dir r ∈ (download_papers fetch dir rs fs).2.1 :=
              hsub hdest
            simp [downloadOne, hu, hsk, hdest, hmem]
          · cases hf : fetch url with
            | ok b =>
              have h21 : (downloadOne fetch dir r fs).2.1 = destPath dir r :: fs := by
                simp [downloadOne, hu, hsk, hdest, hf]
              rw [h21] at hsub ⊢
              have hmem : destPath dir r
                  ∈ (download_papers fetch dir rs (destPath dir r :: fs)).2.1 :=
                hsub (List.mem_cons_self _ _)
              simp [downloadOne, hu, hsk, hdest, hf, hmem]
            | error e =>
              exfalso
              have : (downloadOne fetch dir r fs).1.pdf_download_error = some e := by
                simp [downloadOne, hu, hsk, hdest, hf]
              rw [this] at hA
              exact Option.some_ne_none e hA
    have hrest := ih ((downloadOne fetch dir r fs).2.1) hB
    conv_lhs => rw [show (download_papers fetch dir (r :: rs) fs).2.1
        = (download_papers fetch dir rs (downloadOne fetch dir r fs).2.1).2.1 from rfl]
    rw [show download_papers fetch dir (r :: rs)
          ((download_papers fetch dir rs (downloadOne fetch dir r fs).2.1).2.1)
        = ((downloadOne fetch dir r
              ((download_papers fetch dir rs (downloadOne fetch dir r fs).2.1).2.1)).1
            :: (download_papers fetch dir rs
              ((downloadOne fetch dir r
                ((download_papers fetch dir rs (downloadOne fetch dir r fs).2.1).2.1)).2.1)).1,
           (download_papers fetch dir rs
              ((downloadOne fetch dir r
                ((download_papers fetch dir rs (downloadOne fetch dir r fs).2.1).2.1)).2.1)).2.1,
           (downloadOne fetch dir r
              ((download_papers fetch dir rs (downloadOne fetch dir r fs).2.1).2.1)).2.2
            + (download_papers fetch dir rs
              ((downloadOne fetch dir r
                ((download_papers fetch dir rs (downloadOne fetch dir r fs).2.1).2.1)).2.1)).2.2)
      from rfl]
    rw [hone]
    simp only [download_papers]
    rw [hrest]
    rfl

/-- Claim C9 counterexample: for a record whose download fails, re-running the
artifact pass against the resulting target directory performs a network call
again (the failed destination was never written, so the existence check does
not short-circuit): the second run's network-call count is not zero, refuting
the unconditional claim. -/
theorem claim9_counterexample :
    (download_papers (fun _ => Except.error "boom") "d"
        [{ id := "a", title := "", abs_url := "", pdf_url := some "u",
           pdf_local_path := none, pdf_download_error := none }]
        ((download_papers (fun _ => Except.error "boom") "d"
          [{ id := "a", title := "", abs_url := "", pdf_url := some "u",
             pdf_local_path := none, pdf_download_error := none }] []).2.1)).2.2 ≠ 0 := by
  decide

/-- Claim C9 (amended): a record whose destination file already exists records
that path as `pdf_local_path` without fetching; and provided the first run of
the artifact pass ends with no `pdf_download_error` on any record, re-running
it over the same records against the resulting filesystem performs zero
network calls and returns the records annotated identically (in particular
identical `pdf_local_path` values) with the filesystem unchanged. -/
theorem claim9_idempotent :
    (∀ (fetch : String → Except String String) (dir : String) (r : Record)
        (fs : List String) (u : String),
        r.pdf_url = some u → u ≠ "" → r.id ≠ "" → destPath dir r ∈ fs →
        downloadOne fetch dir r fs
          = ({ r with pdf_local_path := some (destPath dir r) }, fs, 0))
    ∧ (∀ (fetch : String → Except String String) (dir : String)
        (records : List Record) (fs : List String),
        (∀ r' ∈ (download_papers fetch dir records fs).1, r'.pdf_download_error = none) →
        download_papers fetch dir records ((download_papers fetch dir records fs).2.1)
          = ((download_papers fetch dir records fs).1,
             (download_papers fetch dir records fs).2.1, 0)) := by
  constructor
  · intro fetch dir r fs u hu hu' hi hdest
    simp [downloadOne, hu, hu', hi, hdest]
  · intro fetch dir records fs h
    exact download_rerun fetch dir records fs h

/-- Claim C7 counterexample: for the result item whose abs link has the
nonempty label `"arXiv:arXiv:"` and url `"https://arxiv.org/abs/2101.00001"`,
the code removes BOTH occurrences of the marker (leaving the empty string) and
then falls back to the url's last path segment even though the label is
nonempty, producing `"2101.00001"`; the spec's derivation — strip a known
prefix once, fall back only when the label is empty — produces `"arXiv:"`. -/
theorem claim7_counterexample :
    (extract_records
        [⟨none, some ("https://arxiv.org/abs/2101.00001", "arXiv:arXiv:"), none⟩]).map
        Record.id = ["2101.00001"]
    ∧ specIdentifierOf "arXiv:arXiv:" "https://arxiv.org/abs/2101.00001" = "arXiv:"
    ∧ ("2101.00001" : String) ≠ "arXiv:" := by
  refine ⟨by decide, by decide, by decide⟩

/-- Claim C7 (amended): for every result item with an abs link, the produced
record's identifier is `identifierOf label (pyStrip href)`: the label with
every occurrence of the `"arXiv:"` marker removed (one left-to-right pass) and
the result whitespace-stripped; when THAT is empty (not merely when the label
is empty) and the stripped url is nonempty, the identifier falls back to the
last path segment of the stripped url, and when the stripped url is also
empty it stays empty. -/
theorem claim7_identifier (href label : String) (tEl : Option (List String))
    (pEl : Option String) (items : List PageItem) :
    (extract_records
        ({ title_el := tEl, abs_el := some (href, label), pdf_el := pEl } :: items)).map
        Record.id
      = identifierOf label (pyStrip href) :: (extract_records items).map Record.id
    ∧ (pyStrip ⟨removeArxivL label.data⟩ ≠ "" →
        identifierOf label (pyStrip href) = pyStrip ⟨removeArxivL label.data⟩)
    ∧ (pyStrip ⟨removeArxivL label.data⟩ = "" → pyStrip href ≠ "" →
        identifierOf label (pyStrip href) = lastSegment (pyStrip href))
    ∧ (pyStrip ⟨removeArxivL label.data⟩ = "" → pyStrip href = "" →
        identifierOf label (pyStrip href) = "") := by
  refine ⟨?_, ?_, ?_, ?_⟩
  · simp [extract_records, identifierOf]
  · intro h
    simp [identifierOf, h]
  · intro h1 h2
    simp [identifierOf, h1, h2]
  · intro h1 h2
    simp [identifierOf, h1, h2]

theorem space_char_cases (c : Char) (h : pyIsSpace c = true) :
    c = ' ' ∨ c = '\t' ∨ c = '\n' ∨ c = '\r' ∨ c = '\x0b' ∨ c = '\x0c' :=
  of_decide_eq_true h

theorem space_not_digit (c : Char) (h : pyIsSpace c = true) : c.isDigit = false := by
  rcases space_char_cases c h with rfl | rfl | rfl | rfl | rfl | rfl <;> decide

theorem space_not_digitComma (c : Char) (h : pyIsSpace c = true) :
    isDigitComma c = false := by
  rcases space_char_cases c h with rfl | rfl | rfl | rfl | rfl | rfl <;> decide

theorem digit_not_space (c : Char) (h : c.isDigit = true) : pyIsSpace c = false := by
  cases hs : pyIsSpace c with
  | false => rfl
  | true =>
    have hd := space_not_digit c hs
    rw [h] at hd
    exact absurd hd (by decide)

theorem digitComma_not_space (c : Char) (h : isDigitComma c = true) :
    pyIsSpace c = false := by
  cases hs : pyIsSpace c with
  | false => rfl
  | true =>
    have hd := space_not_digitComma c hs
    rw [h] at hd
    exact absurd hd (by decide)

theorem head?_append_left (X Y : List Char) (h : X ≠ []) :
    (X ++ Y).head? = X.head? := by
  cases X with
  | nil => exact absurd rfl h
  | cons a as => rfl

theorem mem_of_head?Ch (X : List Char) (c : Char) (h : X.head? = some c) : c ∈ X := by
  cases X with
  | nil => simp at h
  | cons a as =>
    obtain rfl : a = c := by simpa using h
    exact List.mem_cons_self a as

theorem dropWhile_append_of_all (p : Char → Bool) (w rest : List Char)
    (hw : ∀ c ∈ w, p c = true)
    (hr : ∀ c, rest.head? = some c → p c = false) :
    (w ++ rest).dropWhile p = rest := by
  induction w with
  | nil =>
    rw [List.nil_append]
    cases rest with
    | nil => rfl
    | cons c cs => rw [List.dropWhile_cons, if_neg (by simp [hr c rfl])]
  | cons a as ih =>
    rw [List.cons_append, List.dropWhile_cons, if_pos (hw a (by simp))]
    exact ih (fun c hc => hw c (by simp [hc]))

theorem takeWhile_append_of_all (p : Char → Bool) (w rest : List Char)
    (hw : ∀ c ∈ w, p c = true)
    (hr : ∀ c, rest.head? = some c → p c = false) :
    (w ++ rest).takeWhile p = w := by
  induction w with
  | nil =>
    rw [List.nil_append]
    cases rest with
    | nil => rfl
    | cons c cs => rw [List.takeWhile_cons, if_neg (by simp [hr c rfl])]
  | cons a as ih =>
    rw [List.cons_append, List.takeWhile_cons, if_pos (hw a (by simp)),
      ih (fun c hc => hw c (by simp [hc]))]

theorem munch1_append (p : Char → Bool) (w rest : List Char) (hne : w ≠ [])
    (hw : ∀ c ∈ w, p c = true)
    (hr : ∀ c, rest.head? = some c → p c = false) :
    munch1 p (w ++ rest) = some (w, rest) := by
  rw [munch1, takeWhile_append_of_all p w rest hw hr,
    dropWhile_append_of_all p w rest hw hr, if_neg hne]

theorem ws1_append (w rest : List Char) (hne : w ≠ [])
    (hw : ∀ c ∈ w, pyIsSpace c = true)
    (hr : ∀ c, rest.head? = some c → pyIsSpace c = false) :
    ws1 (w ++ rest) = some rest := by
  cases w with
  | nil => exact absurd rfl hne
  | cons a as =>
    rw [List.cons_append, ws1, if_pos (hw a (by simp)),
      dropWhile_append_of_all pyIsSpace as rest (fun c hc => hw c (by simp [hc])) hr]

theorem matchLitCI_ci : ∀ (p q rest : List Char),
    q.map Char.toLower = p.map Char.toLower → matchLitCI p (q ++ rest) = some rest := by
  intro p
  induction p with
  | nil =>
    intro q rest h
    cases q with
    | nil => rfl
    | cons a as => simp at h
  | cons x xs ih =>
    intro q rest h
    cases q with
    | nil => simp at h
    | cons a as =>
      simp only [List.map_cons, List.cons.injEq] at h
      rw [List.cons_append, matchLitCI, if_pos h.1]
      exact ih as rest h.2

theorem ndash_data : "&ndash;".data = ['&', 'n', 'd', 'a', 's', 'h', ';'] := rfl

theorem hyphen_data : "-".data = ['-'] := rfl

theorem sepMatch_hyphen (rest : List Char) : sepMatch ('-' :: rest) = some rest := by
  have h1 : matchLitCI "&ndash;".data ('-' :: rest) = none := by
    rw [ndash_data, matchLitCI, if_neg (by decide)]
  have h2 : matchLitCI "-".data ('-' :: rest) = some rest := by
    rw [hyphen_data, matchLitCI, if_pos (by decide)]
    rfl
  rw [sepMatch, h1, h2]

theorem sepMatch_ndash (rest : List Char) :
    sepMatch ("&ndash;".data ++ rest) = some rest := by
  have h1 : matchLitCI "&ndash;".data ("&ndash;".data ++ rest) = some rest :=
    matchLitCI_ci _ _ rest rfl
  rw [sepMatch, h1]

theorem litPrefixCk_self : ∀ (p rest : List Char), litPrefixCk p (p ++ rest) = true := by
  intro p
  induction p with
  | nil => intro rest; rfl
  | cons x xs ih => intro rest; rw [List.cons_append, litPrefixCk, if_pos rfl]; exact ih rest

theorem containsList_starts (p rest : List Char) : containsList p (p ++ rest) = true := by
  cases p with
  | nil =>
    rw [List.nil_append]
    induction rest with
    | nil => rfl
    | cons a as ih => rw [containsList]; simp [litPrefixCk]
  | cons x xs =>
    rw [List.cons_append, containsList, ← List.cons_append, litPrefixCk_self]
    rfl

theorem containsList_append_right (p : List Char) :
    ∀ (x l : List Char), containsList p l = true → containsList p (x ++ l) = true := by
  intro x
  induction x with
  | nil => intro l h; simpa using h
  | cons a as ih =>
    intro l h
    rw [List.cons_append, containsList, ih l h, Bool.or_true]

theorem reSearchTotal_of_matchFrom (l : List Char) (n : Option Nat) (hne : l ≠ [])
    (h : matchFrom l = some n) : reSearchTotal l = some n := by
  cases l with
  | nil => exact absurd rfl hne
  | cons c cs => rw [reSearchTotal, h]

theorem of_data1 : "of".data = ['o', 'f'] := rfl
theorem of_data2 : "OF".data = ['O', 'F'] := rfl
theorem of_data3 : "Of".data = ['O', 'f'] := rfl
theorem of_data4 : "oF".data = ['o', 'F'] := rfl
theorem results_data : "results".data = ['r', 'e', 's', 'u', 'l', 't', 's'] := rfl

theorem matchFrom_canonical
    (w1 w2 w3 w4 z1 z2 M N T sep ofw tl : List Char)
    (hw1 : w1 ≠ []) (hw1s : ∀ c ∈ w1, pyIsSpace c = true)
    (hw2 : w2 ≠ []) (hw2s : ∀ c ∈ w2, pyIsSpace c = true)
    (hw3 : w3 ≠ []) (hw3s : ∀ c ∈ w3, pyIsSpace c = true)
    (hw4 : w4 ≠ []) (hw4s : ∀ c ∈ w4, pyIsSpace c = true)
    (hz1 : ∀ c ∈ z1, pyIsSpace c = true) (hz2 : ∀ c ∈ z2, pyIsSpace c = true)
    (hM : M ≠ []) (hMd : ∀ c ∈ M, c.isDigit = true)
    (hN : N ≠ []) (hNd : ∀ c ∈ N, c.isDigit = true)
    (hT : T ≠ []) (hTd : ∀ c ∈ T, isDigitComma c = true)
    (hsep : sep = ['-'] ∨ sep = "&ndash;".data)
    (hof : ofw = "of".data ∨ ofw = "OF".data ∨ ofw = "Of".data ∨ ofw = "oF".data) :
    matchFrom ("Showing".data ++ (w1 ++ (M ++ (z1 ++ (sep ++ (z2 ++ (N ++ (w2 ++
      (ofw ++ (w3 ++ (T ++ (w4 ++ ("results".data ++ tl)))))))))))))
      = some (pyInt (stripCommas T)) := by
  have hsepne : sep ≠ [] := by rcases hsep with rfl | rfl <;> decide
  have hofne : ofw ≠ [] := by rcases hof with rfl | rfl | rfl | rfl <;> decide
  have hsephd : ∀ X : List Char, ∀ c, ((sep ++ X).head? = some c →
      pyIsSpace c = false ∧ Char.isDigit c = false) := by
    intro X c hc
    rw [head?_append_left sep _ hsepne] at hc
    rcases hsep with rfl | rfl
    · obtain rfl : '-' = c := by simpa using hc
      exact ⟨by decide, by decide⟩
    · rw [ndash_data] at hc
      obtain rfl : '&' = c := by simpa using hc
      exact ⟨by decide, by decide⟩
  have e1 : matchLitCI "Showing".data ("Showing".data ++ (w1 ++ (M ++ (z1 ++ (sep ++
      (z2 ++ (N ++ (w2 ++ (ofw ++ (w3 ++ (T ++ (w4 ++ ("results".data ++ tl)))))))))))))
      = some (w1 ++ (M ++ (z1 ++ (sep ++ (z2 ++ (N ++ (w2 ++ (ofw ++ (w3 ++ (T ++
          (w4 ++ ("results".data ++ tl)))))))))))) :=
    matchLitCI_ci _ _ _ rfl
  have e2 : ws1 (w1 ++ (M ++ (z1 ++ (sep ++ (z2 ++ (N ++ (w2 ++ (ofw ++ (w3 ++ (T ++
      (w4 ++ ("results".data ++ tl))))))))))))
      = some (M ++ (z1 ++ (sep ++ (z2 ++ (N ++ (w2 ++ (ofw ++ (w3 ++ (T ++
          (w4 ++ ("results".data ++ tl))))))))))) :=
    ws1_append w1 _ hw1 hw1s (by
      intro c hc
      rw [head?_append_left M _ hM] at hc
      exact digit_not_space c (hMd c (mem_of_head?Ch M c hc)))
  have hj3 : ∀ c, (z1 ++ (sep ++ (z2 ++ (N ++ (w2 ++ (ofw ++ (w3 ++ (T ++ (w4 ++
      ("results".data ++ tl)))))))))).head? = some c → Char.isDigit c = false := by
    cases z1 with
    | nil =>
      intro c hc
      rw [List.nil_append] at hc
      exact (hsephd _ c hc).2
    | cons a as =>
      intro c hc
      obtain rfl : a = c := by simpa using hc
      exact space_not_digit a (hz1 a (by simp))
  have e3 : munch1 Char.isDigit (M ++ (z1 ++ (sep ++ (z2 ++ (N ++ (w2 ++ (ofw ++
      (w3 ++ (T ++ (w4 ++ ("results".data ++ tl)))))))))))
      = some (M, z1 ++ (sep ++ (z2 ++ (N ++ (w2 ++ (ofw ++ (w3 ++ (T ++
          (w4 ++ ("results".data ++ tl)))))))))) :=
    munch1_append _ M _ hM hMd hj3
  have e4 : (z1 ++ (sep ++ (z2 ++ (N ++ (w2 ++ (ofw ++ (w3 ++ (T ++ (w4 ++
      ("results".data ++ tl)))))))))).dropWhile pyIsSpace
      = sep ++ (z2 ++ (N ++ (w2 ++ (ofw ++ (w3 ++ (T ++ (w4 ++
          ("results".data ++ tl)))))))) :=
    dropWhile_append_of_all pyIsSpace z1 _ hz1 (fun c hc => (hsephd _ c hc).1)
  have e5 : sepMatch (sep ++ (z2 ++ (N ++ (w2 ++ (ofw ++ (w3 ++ (T ++ (w4 ++
      ("results".data ++ tl)))))))))
      = some (z2 ++ (N ++ (w2 ++ (ofw ++ (w3 ++ (T ++ (w4 ++
          ("results".data ++ tl)))))))) := by
    rcases hsep with rfl | rfl
    · exact sepMatch_hyphen _
    · exact sepMatch_ndash _
  have e6 : (z2 ++ (N ++ (w2 ++ (ofw ++ (w3 ++ (T ++ (w4 ++
      ("results".data ++ tl)))))))).dropWhile pyIsSpace
      = N ++ (w2 ++ (ofw ++ (w3 ++ (T ++ (w4 ++ ("results".data ++ tl)))))) :=
    dropWhile_append_of_all pyIsSpace z2 _ hz2 (by
      intro c hc
      rw [head?_append_left N _ hN] at hc
      exact digit_not_space c (hNd c (mem_of_head?Ch N c hc)))
  have e7 : munch1 Char.isDigit (N ++ (w2 ++ (ofw ++ (w3 ++ (T ++ (w4 ++
      ("results".data ++ tl)))))))
      = some (N, w2 ++ (ofw ++ (w3 ++ (T ++ (w4 ++ ("results".data ++ tl)))))) :=
    munch1_append _ N _ hN hNd (by
      intro c hc
      rw [head?_append_left w2 _ hw2] at hc
      exact space_not_digit c (hw2s c (mem_of_head?Ch w2 c hc)))
  have e8 : ws1 (w2 ++ (ofw ++ (w3 ++ (T ++ (w4 ++ ("results".data ++ tl))))))
      = some (ofw ++ (w3 ++ (T ++ (w4 ++ ("results".data ++ tl))))) :=
    ws1_append w2 _ hw2 hw2s (by
      intro c hc
      rw [head?_append_left ofw _ hofne] at hc
      rcases hof with rfl | rfl | rfl | rfl
      · rw [of_data1] at hc
        obtain rfl : 'o' = c := by simpa using hc
        decide
      · rw [of_data2] at hc
        obtain rfl : 'O' = c := by simpa using hc
        decide
      · rw [of_data3] at hc
        obtain rfl : 'O' = c := by simpa using hc
        decide
      · rw [of_data4] at hc
        obtain rfl : 'o' = c := by simpa using hc
        decide)
  have e9 : matchLitCI "of".data (ofw ++ (w3 ++ (T ++ (w4 ++ ("results".data ++ tl)))))
      = some (w3 ++ (T ++ (w4 ++ ("results".data ++ tl)))) :=
    matchLitCI_ci _ ofw _ (by rcases hof with rfl | rfl | rfl | rfl <;> decide)
  have e10 : ws1 (w3 ++ (T ++ (w4 ++ ("results".data ++ tl))))
      = some (T ++ (w4 ++ ("results".data ++ tl))) :=
    ws1_append w3 _ hw3 hw3s (by
      intro c hc
      rw [head?_append_left T _ hT] at hc
      exact digitComma_not_space c (hTd c (mem_of_head?Ch T c hc)))
  have e11 : munch1 isDigitComma (T ++ (w4 ++ ("results".data ++ tl)))
      = some (T, w4 ++ ("results".data ++ tl)) :=
    munch1_append _ T _ hT hTd (by
      intro c hc
      rw [head?_append_left w4 _ hw4] at hc
      exact space_not_digitComma c (hw4s c (mem_of_head?Ch w4 c hc)))
  have e12 : ws1 (w4 ++ ("results".data ++ tl)) = some ("results".data ++ tl) :=
    ws1_append w4 _ hw4 hw4s (by
      intro c hc
      rw [head?_append_left _ _ (by decide : "results".data ≠ []), results_data] at hc
      obtain rfl : 'r' = c := by simpa using hc
      decide)
  have e13 : matchLitCI "results".data ("results".data ++ tl) = some tl :=
    matchLitCI_ci _ _ _ rfl
  simp only [matchFrom, e1, e2, e3, e4, e5, e6, e7, e8, e9, e10, e11, e12, e13,
    Option.bind_eq_bind, Option.some_bind, Option.pure_def]


theorem extract_total_resultsE_none : ∀ texts : List String,
    (∀ t ∈ texts, (containsStr "Showing" t && containsStr "results" t) = true →
      reSearchTotal t.data = none) →
    extract_total_resultsE texts = Except.ok none := by
  intro texts
  induction texts with
  | nil => intro _; rfl
  | cons t ts ih =>
    intro h
    by_cases hg : (containsStr "Showing" t && containsStr "results" t) = true
    · have hr := h t (by simp) hg
      rw [extract_total_resultsE, if_pos hg, hr]
      exact ih (fun t' ht' hg' => h t' (by simp [ht']) hg')
    · rw [extract_total_resultsE, if_neg hg]
      exact ih (fun t' ht' hg' => h t' (by simp [ht']) hg')

theorem mem_stripCommas (T : List Char) (c : Char) (hc : c ∈ stripCommas T) :
    c ∈ T ∧ c ≠ ',' := by
  unfold stripCommas at hc
  have h := List.mem_filter.mp hc
  exact ⟨h.1, of_decide_eq_true h.2⟩

theorem stripCommas_all_digit (T : List Char) (hTd : ∀ c ∈ T, isDigitComma c = true) :
    ∀ c ∈ stripCommas T, c.isDigit = true := by
  intro c hc
  obtain ⟨hmem, hne⟩ := mem_stripCommas T c hc
  have h := hTd c hmem
  rw [isDigitComma] at h
  cases hd : c.isDigit with
  | true => rfl
  | false =>
    rw [hd] at h
    simp only [Bool.false_or, decide_eq_true_eq] at h
    exact absurd h hne

theorem stripCommas_ne_nil (T : List Char) (h : T.any Char.isDigit = true) :
    stripCommas T ≠ [] := by
  obtain ⟨c, hmem, hdig⟩ := List.any_eq_true.mp h
  intro hnil
  have hin : c ∈ stripCommas T := by
    unfold stripCommas
    refine List.mem_filter.mpr ⟨hmem, decide_eq_true ?_⟩
    intro hcomma
    rw [hcomma] at hdig
    exact absurd hdig (by decide)
  rw [hnil] at hin
  simp at hin

theorem stripCommas_all_comma : ∀ T : List Char, (∀ c ∈ T, c = ',') →
    stripCommas T = [] := by
  intro T
  induction T with
  | nil => intro _; rfl
  | cons a as ih =>
    intro h
    obtain rfl : a = ',' := h a (by simp)
    simp only [stripCommas, List.filter_cons]
    rw [if_neg (by decide)]
    exact ih (fun c hc => h c (by simp [hc]))

theorem pyInt_some_of (l : List Char) (hne : l ≠ [])
    (hall : ∀ c ∈ l, c.isDigit = true) : pyInt l ≠ none := by
  have hcond : l ≠ [] ∧ l.all Char.isDigit = true :=
    ⟨hne, List.all_eq_true.mpr (fun c hc => hall c hc)⟩
  rw [pyInt, if_pos hcond]
  simp

theorem pyInt_nil : pyInt [] = none := by
  rw [pyInt, if_neg]
  intro hcond
  exact hcond.1 rfl

theorem extract_total_canonical
    (w1 w2 w3 w4 z1 z2 M N T sep ofw tl : List Char)
    (hw1 : w1 ≠ []) (hw1s : ∀ c ∈ w1, pyIsSpace c = true)
    (hw2 : w2 ≠ []) (hw2s : ∀ c ∈ w2, pyIsSpace c = true)
    (hw3 : w3 ≠ []) (hw3s : ∀ c ∈ w3, pyIsSpace c = true)
    (hw4 : w4 ≠ []) (hw4s : ∀ c ∈ w4, pyIsSpace c = true)
    (hz1 : ∀ c ∈ z1, pyIsSpace c = true) (hz2 : ∀ c ∈ z2, pyIsSpace c = true)
    (hM : M ≠ []) (hMd : ∀ c ∈ M, c.isDigit = true)
    (hN : N ≠ []) (hNd : ∀ c ∈ N, c.isDigit = true)
    (hT : T ≠ []) (hTd : ∀ c ∈ T, isDigitComma c = true)
    (hsep : sep = ['-'] ∨ sep = "&ndash;".data)
    (hof : ofw = "of".data ∨ ofw = "OF".data ∨ ofw = "Of".data ∨ ofw = "oF".data) :
    extract_total_resultsE
      [⟨"Showing".data ++ (w1 ++ (M ++ (z1 ++ (sep ++ (z2 ++ (N ++ (w2 ++
        (ofw ++ (w3 ++ (T ++ (w4 ++ ("results".data ++ tl))))))))))))⟩]
      = match pyInt (stripCommas T) with
        | some n => Except.ok (some n)
        | none => Except.error () := by
  have hm := matchFrom_canonical w1 w2 w3 w4 z1 z2 M N T sep ofw tl hw1 hw1s hw2 hw2s
    hw3 hw3s hw4 hw4s hz1 hz2 hM hMd hN hNd hT hTd hsep hof
  have hne : ("Showing".data ++ (w1 ++ (M ++ (z1 ++ (sep ++ (z2 ++ (N ++ (w2 ++
      (ofw ++ (w3 ++ (T ++ (w4 ++ ("results".data ++ tl))))))))))))) ≠ ([] : List Char) := by
    rw [show "Showing".data = 'S' :: "howing".data from rfl]
    simp
  have hsearch := reSearchTotal_of_matchFrom _ (pyInt (stripCommas T)) hne hm
  have hg1 : containsList "Showing".data ("Showing".data ++ (w1 ++ (M ++ (z1 ++ (sep ++
      (z2 ++ (N ++ (w2 ++ (ofw ++ (w3 ++ (T ++ (w4 ++ ("results".data ++ tl))))))))))))) = true :=
    containsList_starts _ _
  have hg2 : containsList "results".data ("Showing".data ++ (w1 ++ (M ++ (z1 ++ (sep ++
      (z2 ++ (N ++ (w2 ++ (ofw ++ (w3 ++ (T ++ (w4 ++ ("results".data ++ tl))))))))))))) = true :=
    containsList_append_right _ _ _ (containsList_append_right _ _ _
      (containsList_append_right _ _ _ (containsList_append_right _ _ _
      (containsList_append_right _ _ _ (containsList_append_right _ _ _
      (containsList_append_right _ _ _ (containsList_append_right _ _ _
      (containsList_append_right _ _ _ (containsList_append_right _ _ _
      (containsList_append_right _ _ _ (containsList_append_right _ _ _
      (containsList_starts _ _))))))))))))
  cases hp : pyInt (stripCommas T) with
  | some n =>
    rw [hp] at hsearch
    rw [extract_total_resultsE, if_pos (by
      show (containsStr "Showing" _ && containsStr "results" _) = true
      rw [containsStr, containsStr]
      show (containsList "Showing".data _ && containsList "results".data _) = true
      rw [hg1, hg2]
      rfl), hsearch]
  | none =>
    rw [hp] at hsearch
    rw [extract_total_resultsE, if_pos (by
      show (containsStr "Showing" _ && containsStr "results" _) = true
      rw [containsStr, containsStr]
      show (containsList "Showing".data _ && containsList "results".data _) = true
      rw [hg1, hg2]
      rfl), hsearch]

/-- Claim C5 counterexample: the regex's separator alternation is the literal
seven-character text `&ndash;` or a hyphen, NOT an en-dash character, so the
summary "Showing 1–50 of 120 results" written with a real en-dash yields no
total; and the pre-filter `"Showing" in text and "results" in text` is
case-sensitive, so the all-uppercase summary is never even scanned.  Both
contradict the claim, which promises `120` for such strings. -/
theorem claim5_counterexample :
    extract_total_results ["Showing 1–50 of 120 results"] ≠ some 120
    ∧ extract_total_results ["SHOWING 1-50 OF 120 RESULTS"] ≠ some 120 :=
  ⟨by decide, by decide⟩

/-- Claim C5 (amended): an element text of the form
`Showing M SEP N of T results` — with nonempty whitespace runs between the
words, optional whitespace around the separator, `M`, `N` nonempty digit runs,
`T` a nonempty run of digits and comma separators, `SEP` either a hyphen or
the literal seven-character text `&ndash;` (a real en-dash character does not
match), the word `of` in any casing, the words `Showing`/`results` exactly in
that casing (the pre-filter is case-sensitive), and arbitrary trailing text —
is handled as follows: when `T` contains at least one digit,
`extract_total_results` returns `T`'s value with the comma separators
stripped; when `T` consists of commas only, the `int("")` conversion at line
150 raises an uncaught `ValueError` rather than returning a total
(`extract_total_resultsE` is `Except.error`); and when no considered element
matches the pattern the result is `none`, which is not an error
(`Except.ok none`). -/
theorem claim5_total_pattern :
    (∀ (w1 w2 w3 w4 z1 z2 M N T sep ofw tl : List Char),
      w1 ≠ [] → (∀ c ∈ w1, pyIsSpace c = true) →
      w2 ≠ [] → (∀ c ∈ w2, pyIsSpace c = true) →
      w3 ≠ [] → (∀ c ∈ w3, pyIsSpace c = true) →
      w4 ≠ [] → (∀ c ∈ w4, pyIsSpace c = true) →
      (∀ c ∈ z1, pyIsSpace c = true) → (∀ c ∈ z2, pyIsSpace c = true) →
      M ≠ [] → (∀ c ∈ M, c.isDigit = true) →
      N ≠ [] → (∀ c ∈ N, c.isDigit = true) →
      T ≠ [] → (∀ c ∈ T, isDigitComma c = true) →
      (sep = ['-'] ∨ sep = "&ndash;".data) →
      (ofw = "of".data ∨ ofw = "OF".data ∨ ofw = "Of".data ∨ ofw = "oF".data) →
      T.any Char.isDigit = true →
      extract_total_resultsE
        [⟨"Showing".data ++ (w1 ++ (M ++ (z1 ++ (sep ++ (z2 ++ (N ++ (w2 ++
          (ofw ++ (w3 ++ (T ++ (w4 ++ ("results".data ++ tl))))))))))))⟩]
        = Except.ok (pyInt (stripCommas T))
      ∧ extract_total_results
          [⟨"Showing".data ++ (w1 ++ (M ++ (z1 ++ (sep ++ (z2 ++ (N ++ (w2 ++
            (ofw ++ (w3 ++ (T ++ (w4 ++ ("results".data ++ tl))))))))))))⟩]
          = pyInt (stripCommas T)
      ∧ pyInt (stripCommas T) ≠ none)
    ∧ (∀ (w1 w2 w3 w4 z1 z2 M N T sep ofw tl : List Char),
      w1 ≠ [] → (∀ c ∈ w1, pyIsSpace c = true) →
      w2 ≠ [] → (∀ c ∈ w2, pyIsSpace c = true) →
      w3 ≠ [] → (∀ c ∈ w3, pyIsSpace c = true) →
      w4 ≠ [] → (∀ c ∈ w4, pyIsSpace c = true) →
      (∀ c ∈ z1, pyIsSpace c = true) → (∀ c ∈ z2, pyIsSpace c = true) →
      M ≠ [] → (∀ c ∈ M, c.isDigit = true) →
      N ≠ [] → (∀ c ∈ N, c.isDigit = true) →
      T ≠ [] →
      (sep = ['-'] ∨ sep = "&ndash;".data) →
      (ofw = "of".data ∨ ofw = "OF".data ∨ ofw = "Of".data ∨ ofw = "oF".data) →
      (∀ c ∈ T, c = ',') →
      extract_total_resultsE
        [⟨"Showing".data ++ (w1 ++ (M ++ (z1 ++ (sep ++ (z2 ++ (N ++ (w2 ++
          (ofw ++ (w3 ++ (T ++ (w4 ++ ("results".data ++ tl))))))))))))⟩]
        = Except.error ())
    ∧ (∀ texts : List String,
        (∀ t ∈ texts, (containsStr "Showing" t && containsStr "results" t) = true →
          reSearchTotal t.data = none) →
        extract_total_resultsE texts = Except.ok none
        ∧ extract_total_results texts = none) := by
  refine ⟨?_, ?_, ?_⟩
  · intro w1 w2 w3 w4 z1 z2 M N T sep ofw tl hw1 hw1s hw2 hw2s hw3 hw3s hw4 hw4s
      hz1 hz2 hM hMd hN hNd hT hTd hsep hof hTdig
    have hall := stripCommas_all_digit T hTd
    have hne := stripCommas_ne_nil T hTdig
    have hps := pyInt_some_of (stripCommas T) hne hall
    have hE := extract_total_canonical w1 w2 w3 w4 z1 z2 M N T sep ofw tl hw1 hw1s
      hw2 hw2s hw3 hw3s hw4 hw4s hz1 hz2 hM hMd hN hNd hT hTd hsep hof
    cases hp : pyInt (stripCommas T) with
    | none => exact absurd hp hps
    | some n =>
      rw [hp] at hE
      refine ⟨hE, ?_, by simp⟩
      rw [extract_total_results, hE]
  · intro w1 w2 w3 w4 z1 z2 M N T sep ofw tl hw1 hw1s hw2 hw2s hw3 hw3s hw4 hw4s
      hz1 hz2 hM hMd hN hNd hT hsep hof hTc
    have hTd : ∀ c ∈ T, isDigitComma c = true := by
      intro c hc
      rw [hTc c hc]
      decide
    have hp : pyInt (stripCommas T) = none := by
      rw [stripCommas_all_comma T hTc]
      exact pyInt_nil
    have hE := extract_total_canonical w1 w2 w3 w4 z1 z2 M N T sep ofw tl hw1 hw1s
      hw2 hw2s hw3 hw3s hw4 hw4s hz1 hz2 hM hMd hN hNd hT hTd hsep hof
    rw [hp] at hE
    exact hE
  · intro texts h
    have hE := extract_total_resultsE_none texts h
    exact ⟨hE, by rw [extract_total_results, hE]⟩

/-! ### Verification instances (witnesses) -/

/-- Concrete instance of claim C1. -/
theorem claim1_witness :
    (collectRun srv1 50 none 3).fetches = [0, 50, 100]
    ∧ (collectRun srv1 50 none 3).fetches.length = 3
    ∧ 150 ∉ (collectRun srv1 50 none 3).fetches :=
  claim1_three_fetches srv1 3 (by decide) (by decide) (by decide) (by decide) (by decide)

/-- Concrete instance of claim C2. -/
theorem claim2_witness :
    ((collectRun srv2 5 none 3).collected.countP (fun r => decide (r.id = "a"))) = 1
    ∧ (concatAll (((collectRun srv2 5 none 3).fetches).map
        fun o => extract_records (srv2 o).items)).find? (fun x => decide (x.id = "a"))
        = some recA :=
  ⟨(claim2_dedup_first_seen srv2 5 none 3).2.1 "a" (by decide) (by decide),
   (claim2_dedup_first_seen srv2 5 none 3).2.2 recA (by decide)⟩

/-- Concrete instance of claim C3. -/
theorem claim3_witness :
    ((collectRun srv3 50 none 2).total_results = some 100
      ∧ (collectRun srv3 50 none 2).fetches = [0, 50])
    ∧ (collectLoop srv3 50 none 1
        { collected := [], seen := [], start := 0, total_results := some 7,
          page_index := 0, fetches := [] }).total_results = some 7 :=
  ⟨claim3_total_first_wins.2 srv3 2 (by decide) (by decide) (by decide) (by decide)
      (by decide),
   claim3_total_first_wins.1 srv3 50 none 1
      { collected := [], seen := [], start := 0, total_results := some 7,
        page_index := 0, fetches := [] } 7 rfl⟩

/-- Concrete instance of claim C4. -/
theorem claim4_witness :
    collectLoop (fun _ => ⟨[], []⟩) 10 none 5 initState
      = { initState with fetches := initState.fetches ++ [initState.start] } :=
  claim4_empty_page_stops (fun _ => ⟨[], []⟩) 10 none 4 initState (by decide) rfl

/-- Concrete instance of the amended claim C5: a parsed total with a
thousands separator, the `ValueError` path on an all-comma group, and the
not-an-error absence case. -/
theorem claim5_witness :
    (extract_total_resultsE
      [⟨"Showing".data ++ ([' '] ++ (['1'] ++ ([] ++ (['-'] ++ ([] ++ (['5', '0'] ++
          ([' '] ++ ("of".data ++ ([' '] ++ (['1', ',', '2', '3', '4'] ++ ([' '] ++
          ("results".data ++ []))))))))))))⟩]
      = Except.ok (pyInt (stripCommas ['1', ',', '2', '3', '4']))
      ∧ extract_total_results
          [⟨"Showing".data ++ ([' '] ++ (['1'] ++ ([] ++ (['-'] ++ ([] ++ (['5', '0'] ++
          ([' '] ++ ("of".data ++ ([' '] ++ (['1', ',', '2', '3', '4'] ++ ([' '] ++
          ("results".data ++ []))))))))))))⟩]
          = pyInt (stripCommas ['1', ',', '2', '3', '4'])
      ∧ pyInt (stripCommas ['1', ',', '2', '3', '4']) ≠ none)
    ∧ extract_total_resultsE
        [⟨"Showing".data ++ ([' '] ++ (['1'] ++ ([] ++ (['-'] ++ ([] ++ (['2'] ++
          ([' '] ++ ("of".data ++ ([' '] ++ ([','] ++ ([' '] ++
          ("results".data ++ []))))))))))))⟩]
        = Except.error ()
    ∧ (extract_total_resultsE [] = Except.ok none
        ∧ extract_total_results [] = none) :=
  ⟨claim5_total_pattern.1 [' '] [' '] [' '] [' '] [] [] ['1'] ['5', '0']
      ['1', ',', '2', '3', '4'] ['-'] ("of".data) []
      (by decide) (by decide) (by decide) (by decide) (by decide) (by decide)
      (by decide) (by decide) (by decide) (by decide) (by decide) (by decide)
      (by decide) (by decide) (by decide) (by decide) (by decide) (by decide)
      (by decide),
   claim5_total_pattern.2.1 [' '] [' '] [' '] [' '] [] [] ['1'] ['2'] [','] ['-']
      ("of".data) []
      (by decide) (by decide) (by decide) (by decide) (by decide) (by decide)
      (by decide) (by decide) (by decide) (by decide) (by decide) (by decide)
      (by decide) (by decide) (by decide) (by decide) (by decide) (by decide),
   claim5_total_pattern.2.2 [] (by simp)⟩

/-- Concrete instance of claim C6. -/
theorem claim6_witness :
    slugify "ab" ≠ ""
    ∧ ('a' ∈ (slugify "ab").data ∧ allowedChar 'a' = true)
    ∧ ((slugify "ab").data.head? = some 'a' ∧ isUnderscoreDot 'a' = false)
    ∧ ((slugify "ab").data.reverse.head? = some 'b' ∧ isUnderscoreDot 'b' = false) :=
  ⟨(claim6_slugify.2.2.2 "ab").1,
   ⟨by decide, (claim6_slugify.2.2.2 "ab").2.1 'a' (by decide)⟩,
   ⟨by decide, (claim6_slugify.2.2.2 "ab").2.2.1 'a' (by decide)⟩,
   ⟨by decide, (claim6_slugify.2.2.2 "ab").2.2.2 'b' (by decide)⟩⟩

/-- Concrete instance of the amended claim C7. -/
theorem claim7_witness :
    (extract_records
        [⟨none, some ("https://arxiv.org/abs/777", "arXiv:777"), none⟩]).map Record.id
      = identifierOf "arXiv:777" (pyStrip "https://arxiv.org/abs/777")
          :: (extract_records []).map Record.id
    ∧ identifierOf "arXiv:777" (pyStrip "https://arxiv.org/abs/777")
        = pyStrip ⟨removeArxivL "arXiv:777".data⟩
    ∧ identifierOf "" (pyStrip "https://arxiv.org/abs/9")
        = lastSegment (pyStrip "https://arxiv.org/abs/9") :=
  ⟨(claim7_identifier "https://arxiv.org/abs/777" "arXiv:777" none none []).1,
   (claim7_identifier "https://arxiv.org/abs/777" "arXiv:777" none none []).2.1
      (by decide),
   (claim7_identifier "https://arxiv.org/abs/9" "" none none []).2.2.1
      (by decide) (by decide)⟩

/-- Concrete instance of claim C8. -/
theorem claim8_witness :
    download_papers fetch23 outDir [recU1, recU2, recU3] []
      = ([{ recU1 with pdf_local_path := some (destPath outDir recU1) },
          { recU2 with pdf_download_error := some "boom" },
          { recU3 with pdf_local_path := some (destPath outDir recU3) }],
         destPath outDir recU3 :: destPath outDir recU1 :: [], 3)
    ∧ (write_output fetch23 [recU1, recU2, recU3] "root" "q z" 5 "o" "st" "ab" "src"
        "ts" []).1.records
        = [{ recU1 with pdf_local_path := some (destPath outDir recU1) },
           { recU2 with pdf_download_error := some "boom" },
           { recU3 with pdf_local_path := some (destPath outDir recU3) }]
    ∧ (write_output fetch23 [recU1, recU2, recU3] "root" "q z" 5 "o" "st" "ab" "src"
        "ts" []).1.count = 3
    ∧ (write_output fetch23 [recU1, recU2, recU3] "root" "q z" 5 "o" "st" "ab" "src"
        "ts" []).1.records.map Record.id = [recU1.id, recU2.id, recU3.id] :=
  claim8_partial_failure.2 fetch23 "root" "q z" "o" "st" "ab" "src" "ts" outDir 5 []
    recU1 recU2 recU3 "u1" "u2" "u3" "body" "body" "boom"
    (by decide) (by decide) (by decide) (by decide) (by decide) (by decide)
    (by decide) (by decide) (by decide) (by decide) rfl rfl
    rfl (by decide) (by decide) (by decide) (by decide) (by decide)

/-- Concrete instance of the amended claim C9. -/
theorem claim9_witness :
    downloadOne fetchOK "d" recU1 [destPath "d" recU1]
      = ({ recU1 with pdf_local_path := some (destPath "d" recU1) },
         [destPath "d" recU1], 0)
    ∧ download_papers fetchOK "d" [recU1] ((download_papers fetchOK "d" [recU1] []).2.1)
      = ((download_papers fetchOK "d" [recU1] []).1,
         (download_papers fetchOK "d" [recU1] []).2.1, 0) :=
  ⟨claim9_idempotent.1 fetchOK "d" recU1 [destPath "d" recU1] "u1"
      (by decide) (by decide) (by decide) (by decide),
   claim9_idempotent.2 fetchOK "d" [recU1] [] (by decide)⟩

/-- Concrete instance of claim C10. -/
theorem claim10_witness :
    recA.id ≠ "" ∧ ("a" : String) ≠ "" :=
  ⟨(claim10_nonempty_ids srv2 5 none 3).1 recA (by decide),
   (claim10_nonempty_ids srv2 5 none 3).2 "a" (by decide)⟩

end Arxiv
